import Mathlib

/-!
Shallow embedding of the personalized game recommender of the `leadrboard`
backend (`src/backend/app/services/recommendation.py`, class `GameRecommendation`,
and the endpoint `get_personalized_games` in `src/backend/app/api/games.py`).

A review row is an observation `(user_id, game_id, rating)`; the data frame
fetched by `_fetch_data` is a list of observations in row order.  Ratings are
stored as floats in the source; they are modelled exactly as rationals, and
the cosine-similarity values (which involve square roots) live in `ℝ`.
-/

namespace Leadrboard

/-- One review row as fetched by `GameRecommendation._fetch_data`:
`{"user_id": r.user_id, "game_id": r.game_id, "rating": r.rating}`. -/
structure Obs where
  user_id : Int
  game_id : Int
  rating : ℚ
deriving DecidableEq, Repr

/-- The distinct user ids of the data frame, in ascending order: the row index
of the pivot table `df.pivot_table(index="user_id", columns="game_id", values="rating")`
(pandas sorts the index). -/
def users (df : List Obs) : List Int :=
  ((df.map Obs.user_id).dedup).insertionSort (· ≤ ·)

/-- The set of game ids appearing in the data frame: the column index of the
pivot table. -/
def gamesFin (df : List Obs) : Finset Int :=
  (df.map Obs.game_id).toFinset

/-- All ratings user `u` gave to game `g`, in row order. -/
def ratingsOf (df : List Obs) (u g : Int) : List ℚ :=
  (df.filter fun o => o.user_id = u ∧ o.game_id = g).map Obs.rating

/-- One entry of the filled user-game matrix
(`user_game_matrix_filled = df.pivot_table(...).fillna(0)`): the pivot table
aggregates duplicate `(user, game)` pairs with the default `mean` aggregation,
and missing cells become `0`. -/
def entry (df : List Obs) (u g : Int) : ℚ :=
  if ratingsOf df u g = [] then 0
  else (ratingsOf df u g).sum / (ratingsOf df u g).length

/-- Dot product of two user rows of the filled matrix. -/
def dotQ (df : List Obs) (a b : Int) : ℚ :=
  ∑ g ∈ gamesFin df, entry df a g * entry df b g

/-- One entry of `cosine_similarity(user_game_matrix_filled)`:
`dot(a,b) / (‖a‖ * ‖b‖)`, where a zero row is left untouched by sklearn's
normalisation and hence yields similarity `0`. -/
noncomputable def sim (df : List Obs) (a b : Int) : ℝ :=
  if dotQ df a a = 0 ∨ dotQ df b b = 0 then 0
  else (dotQ df a b : ℝ) / (Real.sqrt (dotQ df a a) * Real.sqrt (dotQ df b b))

/-- `user_similarity_df[target].drop(target).sort_values(ascending=False)`:
every other user, sorted by descending similarity to the target
(stably, over the ascending user index). -/
noncomputable def similarUsers (df : List Obs) (t : Int) : List Int :=
  @List.insertionSort Int (fun a b => sim df t b ≤ sim df t a)
    (fun _ _ => Real.decidableLE _ _)
    ((users df).filter (· ≠ t))

/-- `similar_users.head(10)`: the top 10 most similar users. -/
noncomputable def topSimilar (df : List Obs) (t : Int) : List Int :=
  (similarUsers df t).take 10

/-- `set(df[df['user_id'] == target_user_id]['game_id'])`: the games the
target has already rated (membership is what matters). -/
def rated (df : List Obs) (t : Int) : List Int :=
  (df.filter fun o => o.user_id = t).map Obs.game_id

/-- `recommendations[game_id] = recommendations.get(game_id, 0) + sim_score`
on a Python dict: update the value in place if the key is present, else append
the new key at the end (insertion order preserved). -/
def upsert (l : List (Int × ℝ)) (g : Int) (v : ℝ) : List (Int × ℝ) :=
  match l with
  | [] => [(g, v)]
  | (k, w) :: rest => if k = g then (k, w + v) :: rest else (k, w) :: upsert rest g v

/-- Processing of one row of a neighbor's high-rated games: skip it when the
target already rated the game, otherwise accumulate `sim * rating`. -/
def procObs (R : List Int) (w : ℝ) (acc : List (Int × ℝ)) (o : Obs) : List (Int × ℝ) :=
  if o.game_id ∈ R then acc else upsert acc o.game_id (w * (o.rating : ℝ))

/-- Processing of one neighbor: iterate over
`df[(df['user_id'] == similar_user) & (df['rating'] >= 7.0)]` in row order. -/
noncomputable def procUser (df : List Obs) (t : Int) (acc : List (Int × ℝ)) (u : Int) :
    List (Int × ℝ) :=
  (df.filter fun o => o.user_id = u ∧ (7 : ℚ) ≤ o.rating).foldl
    (procObs (rated df t) (sim df t u)) acc

/-- The `recommendations` dict after the two nested loops, as an insertion-ordered
association list. -/
noncomputable def recDict (df : List Obs) (t : Int) : List (Int × ℝ) :=
  (topSimilar df t).foldl (procUser df t) []

/-- `recommendations.get(g, 0)` on an association list. -/
def scoreD (l : List (Int × ℝ)) (g : Int) : ℝ :=
  ((l.find? fun p => p.1 == g).map Prod.snd).getD 0

/-- The accumulated recommendation weight of game `g` for target `t`. -/
noncomputable def scoreOf (df : List Obs) (t g : Int) : ℝ :=
  scoreD (recDict df t) g

/-- `GameRecommendation.generate_recommendations(target_user_id, num_recommendations)`:
empty on cold start, otherwise
`sorted(recommendations, key=recommendations.get, reverse=True)[:num_recommendations]`. -/
noncomputable def recommend (df : List Obs) (t : Int) (k : Nat) : List Int :=
  if df = [] ∨ t ∉ df.map Obs.user_id then []
  else
    (@List.insertionSort Int (fun a b => scoreD (recDict df t) b ≤ scoreD (recDict df t) a)
      (fun _ _ => Real.decidableLE _ _)
      ((recDict df t).map Prod.fst)).take k

/-- The endpoint `get_personalized_games` in `app/api/games.py`, at the level of
game ids: `none` models the HTTP 400 raised for a negative `limit`; the catalog
is the `game` table in storage order, and `select(Game).where(Game.id.in_(ids))`
returns catalog rows whose id is among the recommended ids. -/
noncomputable def getPersonalizedGames (catalog : List Int) (df : List Obs)
    (uid : Int) (limit : Int) : Option (List Int) :=
  if limit < 0 then none
  else if recommend df uid limit.toNat = [] then some (catalog.take limit.toNat)
  else some (catalog.filter (· ∈ recommend df uid limit.toNat))

/-! ### Reference definitions, written from the specification's words
(for the refinement claim about the candidate score map). -/

/-- Reference score of the specification: for each top-10 neighbor, every
observation of that neighbor with rating ≥ 7 on a game the target has not
rated contributes `similarity * rating`, contributions summed. -/
noncomputable def refScore (df : List Obs) (t g : Int) : ℝ :=
  ((topSimilar df t).map fun u =>
    (((df.filter fun o =>
        o.user_id = u ∧ (7 : ℚ) ≤ o.rating ∧ o.game_id ∉ rated df t ∧ o.game_id = g)).map
      fun o => sim df t u * (o.rating : ℝ)).sum).sum

/-- The candidate games of the specification, with multiplicity, in the order
contributions arrive: qualifying observations of the top-10 neighbors. -/
noncomputable def refCandidates (df : List Obs) (t : Int) : List Int :=
  (topSimilar df t).flatMap fun u =>
    (df.filter fun o =>
      o.user_id = u ∧ (7 : ℚ) ≤ o.rating ∧ o.game_id ∉ rated df t).map Obs.game_id

/-- Deduplication keeping the first occurrence of each element (dict-key order). -/
def dedupF : List Int → List Int
  | [] => []
  | a :: l => a :: dedupF (l.filter (· ≠ a))
termination_by l => l.length
decreasing_by
  exact Nat.lt_succ_of_le (List.length_filter_le _ _)

/-- The reference recommender of the specification: unless the cold-start check
fires, the candidate game ids sorted descending by reference score, truncated. -/
noncomputable def refRecommend (df : List Obs) (t : Int) (k : Nat) : List Int :=
  if df = [] ∨ t ∉ df.map Obs.user_id then []
  else
    (@List.insertionSort Int (fun a b => refScore df t b ≤ refScore df t a)
      (fun _ _ => Real.decidableLE _ _)
      (dedupF (refCandidates df t))).take k

/-- Insertion of a batch of keys into a key list, first occurrence kept. -/
def addKeys (ks : List Int) (gs : List Int) : List Int :=
  gs.foldl (fun ks g => if g ∈ ks then ks else ks ++ [g]) ks

/-- The total contribution of neighbor `u` to the score of game `g`. -/
noncomputable def contrib (df : List Obs) (t u g : Int) : ℝ :=
  ((df.filter fun o =>
      o.user_id = u ∧ (7 : ℚ) ≤ o.rating ∧ o.game_id ∉ rated df t ∧ o.game_id = g).map
    fun o => sim df t u * (o.rating : ℝ)).sum

/-- The qualifying games contributed by neighbor `u`, in row order, with
multiplicity. -/
def perUserCand (df : List Obs) (t u : Int) : List Int :=
  (df.filter fun o => o.user_id = u ∧ (7 : ℚ) ≤ o.rating ∧ o.game_id ∉ rated df t).map
    Obs.game_id

/-! ### Concrete data sets used to settle the scenario claims -/

/-- The specification's concrete scenario: users 1 and 2 rate game 100 with 10,
user 2 additionally rates game 200 with 9, user 3 rates game 300 with 8. -/
def dfC1 : List Obs := [⟨1, 100, 10⟩, ⟨2, 100, 10⟩, ⟨2, 200, 9⟩, ⟨3, 300, 8⟩]

/-- A single user who rated game 100 with 5: the personalized path yields no
candidates, so the endpoint serves the unfiltered fallback list. -/
def dfC2 : List Obs := [⟨1, 100, 5⟩]

/-- Two users sharing game 100; user 2 also likes game 200, so the candidate
set of target 1 is non-empty. -/
def dfC3 : List Obs := [⟨1, 100, 10⟩, ⟨2, 100, 10⟩, ⟨2, 200, 9⟩]

/-- One user rating the same game twice (ratings 4 and 6). -/
def dfC10 : List Obs := [⟨1, 100, 4⟩, ⟨1, 100, 6⟩]

/-! ### Helper lemmas about the dictionary operations -/

lemma scoreD_nil (g : Int) : scoreD [] g = 0 := rfl

lemma scoreD_cons (k : Int) (w : ℝ) (l : List (Int × ℝ)) (g : Int) :
    scoreD ((k, w) :: l) g = if k = g then w else scoreD l g := by
  by_cases h : k = g
  · simp [scoreD, List.find?, h]
  · have hb : (k == g) = false := beq_eq_false_iff_ne.mpr h
    simp [scoreD, List.find?, hb, h]

lemma scoreD_upsert_self (l : List (Int × ℝ)) (g : Int) (v : ℝ) :
    scoreD (upsert l g v) g = scoreD l g + v := by
  induction l with
  | nil => simp [upsert, scoreD_nil, scoreD_cons]
  | cons p rest ih =>
    obtain ⟨k, w⟩ := p
    by_cases h : k = g
    · simp [upsert, h, scoreD_cons]
    · simp [upsert, h, scoreD_cons, ih]

lemma scoreD_upsert_ne (l : List (Int × ℝ)) (g g' : Int) (v : ℝ) (h : g' ≠ g) :
    scoreD (upsert l g v) g' = scoreD l g' := by
  induction l with
  | nil => simp [upsert, scoreD_nil, scoreD_cons, Ne.symm h]
  | cons p rest ih =>
    obtain ⟨k, w⟩ := p
    by_cases hk : k = g
    · subst hk
      simp [upsert, scoreD_cons, Ne.symm h]
    · simp [upsert, hk, scoreD_cons, ih]

lemma keys_upsert (l : List (Int × ℝ)) (g : Int) (v : ℝ) :
    (upsert l g v).map Prod.fst =
      if g ∈ l.map Prod.fst then l.map Prod.fst else l.map Prod.fst ++ [g] := by
  induction l with
  | nil => simp [upsert]
  | cons p rest ih =>
    obtain ⟨k, w⟩ := p
    by_cases hk : k = g
    · simp [upsert, hk]
    · by_cases hg : g ∈ rest.map Prod.fst
      · simp [upsert, hk, hg, Ne.symm hk, ih]
      · simp [upsert, hk, hg, Ne.symm hk, ih]

lemma addKeys_nil (ks : List Int) : addKeys ks [] = ks := rfl

lemma addKeys_cons (ks : List Int) (g : Int) (gs : List Int) :
    addKeys ks (g :: gs) = addKeys (if g ∈ ks then ks else ks ++ [g]) gs := rfl

lemma addKeys_append (ks : List Int) (gs₁ gs₂ : List Int) :
    addKeys ks (gs₁ ++ gs₂) = addKeys (addKeys ks gs₁) gs₂ :=
  List.foldl_append ..

lemma dedupF_cons (a : Int) (l : List Int) :
    dedupF (a :: l) = a :: dedupF (l.filter (· ≠ a)) := by
  rw [dedupF]

lemma addKeys_eq_append_dedupF (gs : List Int) :
    ∀ ks, addKeys ks gs = ks ++ dedupF (gs.filter (fun g => g ∉ ks)) := by
  induction gs with
  | nil => intro ks; simp [addKeys_nil, dedupF]
  | cons a gs ih =>
    intro ks
    by_cases ha : a ∈ ks
    · rw [addKeys_cons, if_pos ha, ih]
      congr 2
      simp [List.filter_cons, ha]
    · rw [addKeys_cons, if_neg ha, ih]
      have hstep : (a :: gs).filter (fun g => g ∉ ks) = a :: gs.filter (fun g => g ∉ ks) := by
        simp [List.filter_cons, ha]
      have hff : (gs.filter (fun g => g ∉ ks)).filter (· ≠ a) =
          gs.filter (fun g => g ∉ ks ++ [a]) := by
        rw [List.filter_filter]
        apply List.filter_congr
        intro g _
        rw [Bool.eq_iff_iff]
        simp only [Bool.and_eq_true, decide_eq_true_eq, List.mem_append, List.mem_singleton]
        tauto
      rw [hstep, dedupF_cons, hff, List.append_assoc, List.singleton_append]

lemma addKeys_nil_left (gs : List Int) : addKeys [] gs = dedupF gs := by
  rw [addKeys_eq_append_dedupF]
  simp

lemma mem_dedupF : ∀ (a : Int) (l : List Int), a ∈ dedupF l ↔ a ∈ l
  | _, [] => by simp [dedupF]
  | a, b :: l => by
    rw [dedupF_cons]
    by_cases hab : a = b
    · simp [hab]
    · have hrec := mem_dedupF a (l.filter (· ≠ b))
      simp only [List.mem_cons, hab, false_or]
      rw [hrec]
      simp [List.mem_filter, hab]
termination_by _ l => l.length
decreasing_by exact Nat.lt_succ_of_le (List.length_filter_le _ _)

/-! ### Fold invariants: the accumulated dict as a sum over observations -/

lemma scoreD_foldl_procObs (R : List Int) (w : ℝ) (g : Int) (rows : List Obs) :
    ∀ acc, scoreD (rows.foldl (procObs R w) acc) g =
      scoreD acc g +
        ((rows.filter fun o => o.game_id ∉ R ∧ o.game_id = g).map
          fun o => w * (o.rating : ℝ)).sum := by
  induction rows with
  | nil => intro acc; simp
  | cons o rows ih =>
    intro acc
    rw [List.foldl_cons, ih]
    by_cases hR : o.game_id ∈ R
    · have hfc : ((o :: rows).filter fun o => o.game_id ∉ R ∧ o.game_id = g) =
          rows.filter fun o => o.game_id ∉ R ∧ o.game_id = g := by
        simp [List.filter_cons, hR]
      rw [procObs, if_pos hR, hfc]
    · rw [procObs, if_neg hR]
      by_cases hg : o.game_id = g
      · have hfc : ((o :: rows).filter fun o => o.game_id ∉ R ∧ o.game_id = g) =
            o :: (rows.filter fun o => o.game_id ∉ R ∧ o.game_id = g) := by
          simp [List.filter_cons, hg, hg ▸ hR]
        rw [hfc, List.map_cons, List.sum_cons, hg, scoreD_upsert_self]
        ring
      · have hfc : ((o :: rows).filter fun o => o.game_id ∉ R ∧ o.game_id = g) =
            rows.filter fun o => o.game_id ∉ R ∧ o.game_id = g := by
          simp [List.filter_cons, hg]
        rw [hfc, scoreD_upsert_ne _ _ _ _ fun h => hg h.symm]

lemma scoreD_procUser (df : List Obs) (t u : Int) (acc : List (Int × ℝ)) (g : Int) :
    scoreD (procUser df t acc u) g = scoreD acc g + contrib df t u g := by
  rw [procUser, scoreD_foldl_procObs, contrib]
  congr 2
  congr 1
  rw [List.filter_filter]
  apply List.filter_congr
  intro o _
  rw [Bool.eq_iff_iff]
  simp only [Bool.and_eq_true, decide_eq_true_eq]
  tauto

lemma scoreD_foldl_procUser (df : List Obs) (t g : Int) (us : List Int) :
    ∀ acc, scoreD (us.foldl (procUser df t) acc) g =
      scoreD acc g + (us.map fun u => contrib df t u g).sum := by
  induction us with
  | nil => intro acc; simp
  | cons u us ih =>
    intro acc
    rw [List.foldl_cons, ih, scoreD_procUser]
    simp only [List.map_cons, List.sum_cons]
    ring

/-- The accumulated weight of game `g` is exactly the specification's reference
score: the sum, over the top-10 neighbors, of `sim * rating` over that
neighbor's qualifying observations. -/
lemma scoreOf_eq_refScore (df : List Obs) (t g : Int) :
    scoreOf df t g = refScore df t g := by
  rw [scoreOf, recDict, scoreD_foldl_procUser, scoreD_nil, zero_add, refScore]
  rfl

/-! ### Fold invariants: the candidate keys of the dict -/

lemma keys_foldl_procObs (R : List Int) (w : ℝ) (rows : List Obs) :
    ∀ acc, ((rows.foldl (procObs R w) acc).map Prod.fst) =
      addKeys (acc.map Prod.fst) ((rows.filter fun o => o.game_id ∉ R).map Obs.game_id) := by
  induction rows with
  | nil => intro acc; simp [addKeys_nil]
  | cons o rows ih =>
    intro acc
    rw [List.foldl_cons, ih]
    by_cases hR : o.game_id ∈ R
    · have hfc : ((o :: rows).filter fun o => o.game_id ∉ R) =
          rows.filter fun o => o.game_id ∉ R := by
        simp [List.filter_cons, hR]
      rw [procObs, if_pos hR, hfc]
    · have hfc : ((o :: rows).filter fun o => o.game_id ∉ R) =
          o :: (rows.filter fun o => o.game_id ∉ R) := by
        simp [List.filter_cons, hR]
      rw [procObs, if_neg hR, hfc, List.map_cons, addKeys_cons, keys_upsert]

lemma keys_procUser (df : List Obs) (t u : Int) (acc : List (Int × ℝ)) :
    (procUser df t acc u).map Prod.fst =
      addKeys (acc.map Prod.fst) (perUserCand df t u) := by
  have hff : ((df.filter fun o => o.user_id = u ∧ (7 : ℚ) ≤ o.rating).filter
        fun o => o.game_id ∉ rated df t) =
      df.filter fun o => o.user_id = u ∧ (7 : ℚ) ≤ o.rating ∧ o.game_id ∉ rated df t := by
    rw [List.filter_filter]
    apply List.filter_congr
    intro o _
    rw [Bool.eq_iff_iff]
    simp only [Bool.and_eq_true, decide_eq_true_eq]
    tauto
  rw [procUser, keys_foldl_procObs, perUserCand, hff]

lemma keys_foldl_procUser (df : List Obs) (t : Int) (us : List Int) :
    ∀ acc, ((us.foldl (procUser df t) acc).map Prod.fst) =
      addKeys (acc.map Prod.fst) (us.flatMap (perUserCand df t)) := by
  induction us with
  | nil => intro acc; simp [addKeys_nil]
  | cons u us ih =>
    intro acc
    rw [List.foldl_cons, ih, keys_procUser, List.flatMap_cons, addKeys_append]

/-- The keys of the `recommendations` dict are exactly the specification's
candidate games, first occurrence kept. -/
lemma keys_recDict (df : List Obs) (t : Int) :
    (recDict df t).map Prod.fst = dedupF (refCandidates df t) := by
  rw [recDict, keys_foldl_procUser, refCandidates]
  rw [show (([] : List (Int × ℝ)).map Prod.fst) = [] from rfl, addKeys_nil_left]
  rfl

lemma mem_keys_recDict (df : List Obs) (t g : Int) :
    g ∈ (recDict df t).map Prod.fst ↔ g ∈ refCandidates df t := by
  rw [keys_recDict, mem_dedupF]

lemma mem_refCandidates (df : List Obs) (t g : Int) (h : g ∈ refCandidates df t) :
    g ∉ rated df t ∧ g ∈ df.map Obs.game_id := by
  rw [refCandidates, List.mem_flatMap] at h
  obtain ⟨u, _, hg⟩ := h
  rw [List.mem_map] at hg
  obtain ⟨o, ho, hog⟩ := hg
  rw [List.mem_filter] at ho
  obtain ⟨hodf, hcond⟩ := ho
  simp only [decide_eq_true_eq] at hcond
  refine ⟨hog ▸ hcond.2.2, ?_⟩
  exact hog ▸ List.mem_map_of_mem Obs.game_id hodf

lemma mem_recommend (df : List Obs) (t : Int) (k : Nat) (g : Int)
    (h : g ∈ recommend df t k) : g ∈ (recDict df t).map Prod.fst := by
  rw [recommend] at h
  by_cases hc : df = [] ∨ t ∉ df.map Obs.user_id
  · rw [if_pos hc] at h
    exact absurd h (List.not_mem_nil g)
  · rw [if_neg hc] at h
    have h' := List.take_subset _ _ h
    exact (List.Perm.mem_iff (List.perm_insertionSort _ _)).mp h'

/-! ### Arithmetic facts about the similarity matrix -/

lemma dotQ_comm (df : List Obs) (a b : Int) : dotQ df a b = dotQ df b a :=
  Finset.sum_congr rfl fun _ _ => mul_comm _ _

lemma entry_nonneg (df : List Obs) (u g : Int) (hr : ∀ o ∈ df, 0 ≤ o.rating) :
    0 ≤ entry df u g := by
  rw [entry]
  split_ifs with h
  · exact le_refl 0
  · apply div_nonneg
    · apply List.sum_nonneg
      intro x hx
      rw [ratingsOf, List.mem_map] at hx
      obtain ⟨o, ho, rfl⟩ := hx
      exact hr o (List.mem_of_mem_filter ho)
    · exact_mod_cast Nat.zero_le _

lemma dotQ_nonneg (df : List Obs) (a b : Int) (hr : ∀ o ∈ df, 0 ≤ o.rating) :
    0 ≤ dotQ df a b :=
  Finset.sum_nonneg fun g _ => mul_nonneg (entry_nonneg df a g hr) (entry_nonneg df b g hr)

lemma dotQ_sq_le (df : List Obs) (a b : Int) :
    dotQ df a b ^ 2 ≤ dotQ df a a * dotQ df b b := by
  have h := Finset.sum_mul_sq_le_sq_mul_sq (gamesFin df) (entry df a) (entry df b)
  simpa only [dotQ, pow_two] using h

/-! ### Basic shape facts about the recommendation output -/

lemma recommend_length_le (df : List Obs) (t : Int) (k : Nat) :
    (recommend df t k).length ≤ k := by
  rw [recommend]
  split_ifs
  · simp
  · exact List.length_take_le k _

lemma recommend_eq_nil_of_absent (df : List Obs) (t : Int) (k : Nat)
    (h : ∀ o ∈ df, o.user_id ≠ t) : recommend df t k = [] := by
  rw [recommend, if_pos]
  right
  intro hmem
  obtain ⟨o, ho, he⟩ := List.mem_map.mp hmem
  exact h o ho he

lemma length_filter_mem_le (catalog ids : List Int) (h : catalog.Nodup) :
    (catalog.filter (· ∈ ids)).length ≤ ids.length := by
  have h1 : (catalog.filter (· ∈ ids)).Nodup := h.filter _
  rw [← List.toFinset_card_of_nodup h1]
  calc (catalog.filter (· ∈ ids)).toFinset.card
      ≤ ids.toFinset.card := by
        apply Finset.card_le_card
        intro a ha
        rw [List.mem_toFinset] at ha ⊢
        have := (List.mem_filter.mp ha).2
        simpa using this
    _ ≤ ids.length := ids.toFinset_card_le

/-! ### Congruence of insertion sort under pointwise-equivalent relations -/

lemma orderedInsert_congr {r s : Int → Int → Prop} (hr : DecidableRel r) (hs : DecidableRel s)
    (hrs : ∀ a b, r a b ↔ s a b) (a : Int) :
    ∀ l : List Int, @List.orderedInsert Int r hr a l = @List.orderedInsert Int s hs a l
  | [] => rfl
  | b :: l => by
    simp only [List.orderedInsert]
    by_cases hab : r a b
    · rw [if_pos hab, if_pos ((hrs a b).mp hab)]
    · rw [if_neg hab, if_neg fun hc => hab ((hrs a b).mpr hc),
        orderedInsert_congr hr hs hrs a l]

lemma insertionSort_congr {r s : Int → Int → Prop} (hr : DecidableRel r) (hs : DecidableRel s)
    (hrs : ∀ a b, r a b ↔ s a b) :
    ∀ l : List Int, @List.insertionSort Int r hr l = @List.insertionSort Int s hs l
  | [] => rfl
  | a :: l => by
    simp only [List.insertionSort]
    rw [insertionSort_congr hr hs hrs l, orderedInsert_congr hr hs hrs a _]

/-! ### Evaluation of the concrete scenario of the specification -/

lemma dfC1_dotQ_eval (a b : Int) (v : ℚ)
    (h : entry dfC1 a 100 * entry dfC1 b 100 + (entry dfC1 a 200 * entry dfC1 b 200 +
      entry dfC1 a 300 * entry dfC1 b 300) = v) : dotQ dfC1 a b = v := by
  rw [dotQ, show gamesFin dfC1 = {100, 200, 300} from by decide]
  rw [show ({100, 200, 300} : Finset Int) = insert 100 (insert 200 {300}) from rfl]
  rw [Finset.sum_insert (by decide), Finset.sum_insert (by decide), Finset.sum_singleton, h]

lemma dfC1_dot11 : dotQ dfC1 1 1 = 100 :=
  dfC1_dotQ_eval 1 1 100 (by norm_num [entry, ratingsOf, dfC1, List.filter])

lemma dfC1_dot22 : dotQ dfC1 2 2 = 181 :=
  dfC1_dotQ_eval 2 2 181 (by norm_num [entry, ratingsOf, dfC1, List.filter])

lemma dfC1_dot33 : dotQ dfC1 3 3 = 64 :=
  dfC1_dotQ_eval 3 3 64 (by norm_num [entry, ratingsOf, dfC1, List.filter])

lemma dfC1_dot12 : dotQ dfC1 1 2 = 100 :=
  dfC1_dotQ_eval 1 2 100 (by norm_num [entry, ratingsOf, dfC1, List.filter])

lemma dfC1_dot13 : dotQ dfC1 1 3 = 0 :=
  dfC1_dotQ_eval 1 3 0 (by norm_num [entry, ratingsOf, dfC1, List.filter])

lemma dfC1_sim12 : sim dfC1 1 2 = 10 / Real.sqrt 181 := by
  rw [sim, dfC1_dot11, dfC1_dot22, dfC1_dot12, if_neg (by norm_num)]
  have h100 : Real.sqrt ((100:ℚ):ℝ) = 10 := by
    rw [show ((100:ℚ):ℝ) = (10:ℝ)^2 by norm_num, Real.sqrt_sq (by norm_num)]
  have h181 : Real.sqrt ((181:ℚ):ℝ) = Real.sqrt 181 := by norm_num
  rw [h100, h181, show ((100:ℚ):ℝ) = 100 by norm_num]
  rw [div_eq_div_iff (by positivity) (by positivity)]
  ring

lemma dfC1_sim13 : sim dfC1 1 3 = 0 := by
  rw [sim, dfC1_dot11, dfC1_dot33, dfC1_dot13, if_neg (by norm_num)]
  norm_num

lemma dfC1_topSimilar : topSimilar dfC1 1 = [2, 3] := by
  rw [topSimilar, similarUsers, show (users dfC1).filter (· ≠ 1) = [2, 3] from by decide]
  simp only [List.insertionSort, List.orderedInsert]
  rw [if_pos (by rw [dfC1_sim13, dfC1_sim12]; positivity)]
  rfl

lemma dfC1_recDict :
    recDict dfC1 1 = [(200, sim dfC1 1 2 * 9), (300, sim dfC1 1 3 * 8)] := by
  rw [recDict, dfC1_topSimilar]
  rw [show ([2, 3] : List Int).foldl (procUser dfC1 1) [] =
      procUser dfC1 1 (procUser dfC1 1 [] 2) 3 from rfl]
  rw [procUser, procUser,
    show (dfC1.filter fun o => o.user_id = 2 ∧ (7:ℚ) ≤ o.rating) =
      [⟨2, 100, 10⟩, ⟨2, 200, 9⟩] from by decide,
    show (dfC1.filter fun o => o.user_id = 3 ∧ (7:ℚ) ≤ o.rating) =
      [⟨3, 300, 8⟩] from by decide,
    show rated dfC1 1 = [100] from by decide]
  simp [procObs, upsert]

lemma dfC1_recommend : recommend dfC1 1 5 = [200, 300] := by
  rw [recommend, if_neg (by decide), dfC1_recDict]
  rw [show ([(200, sim dfC1 1 2 * 9), (300, sim dfC1 1 3 * 8)] : List (Int × ℝ)).map
      Prod.fst = [200, 300] from rfl]
  simp only [List.insertionSort, List.orderedInsert]
  rw [if_pos]
  · rfl
  · simp only [scoreD_cons, if_pos, if_neg, dfC1_sim12, dfC1_sim13]
    norm_num

/-! ### Evaluation of the fallback counterexamples -/

lemma dfC2_recommend (k : Nat) : recommend dfC2 1 k = [] := by
  rw [recommend, if_neg (by decide), recDict, topSimilar, similarUsers,
    show (users dfC2).filter (· ≠ 1) = [] from by decide]
  simp

lemma dfC3_topSimilar : topSimilar dfC3 1 = [2] := by
  rw [topSimilar, similarUsers, show (users dfC3).filter (· ≠ 1) = [2] from by decide]
  simp [List.insertionSort, List.orderedInsert]

lemma dfC3_keys : (recDict dfC3 1).map Prod.fst = [200] := by
  rw [keys_recDict, refCandidates, dfC3_topSimilar,
    show (([2] : List Int).flatMap fun u =>
        (dfC3.filter fun o =>
          o.user_id = u ∧ (7:ℚ) ≤ o.rating ∧ o.game_id ∉ rated dfC3 1).map Obs.game_id) =
      [200] from by decide,
    dedupF_cons]
  simp [dedupF]

lemma dfC3_recommend_zero : recommend dfC3 1 0 = [] := by
  rw [recommend, if_neg (by decide)]
  exact List.take_zero _

/-! ### Claim theorems -/

/-- Claim C2 (amended): the personalized recommendation list produced by
`generate_recommendations` never contains a game the target user has already
rated; the endpoint's fallback list, however, is not filtered this way
(see the counterexample). -/
theorem C2_personalized_excludes_rated (df : List Obs) (t : Int) (k : Nat) (g : Int)
    (h : g ∈ rated df t) : g ∉ recommend df t k := by
  intro hmem
  have hkeys := mem_recommend df t k g hmem
  rw [mem_keys_recDict] at hkeys
  exact (mem_refCandidates df t g hkeys).1 h

/-- Claim C4: the accumulated score map equals the reference definition from
the specification (contributions `sim * rating` of the top-10 neighbors'
qualifying observations, summed, not averaged), the dict keys are exactly the
distinct candidate games, and the output is those candidates sorted descending
by accumulated score, truncated to `num_recommendations`. -/
theorem C4_score_map_matches_reference (df : List Obs) (t : Int) (k : Nat) :
    (∀ g, scoreOf df t g = refScore df t g) ∧
    (recDict df t).map Prod.fst = dedupF (refCandidates df t) ∧
    recommend df t k = refRecommend df t k := by
  refine ⟨scoreOf_eq_refScore df t, keys_recDict df t, ?_⟩
  rw [recommend, refRecommend]
  by_cases hc : df = [] ∨ t ∉ df.map Obs.user_id
  · rw [if_pos hc, if_pos hc]
  · rw [if_neg hc, if_neg hc, keys_recDict df t]
    congr 1
    exact insertionSort_congr _ _
      (fun a b => by
        rw [show scoreD (recDict df t) b = scoreOf df t b from rfl,
          show scoreD (recDict df t) a = scoreOf df t a from rfl,
          scoreOf_eq_refScore df t a, scoreOf_eq_refScore df t b])
      (dedupF (refCandidates df t))

/-- Claim C5: cold start — for a target user with zero observations the
recommender returns the empty list, so the endpoint returns the first
`min(k, C)` games of the catalog, independently of every other user's data. -/
theorem C5_cold_start (catalog : List Int) (df : List Obs) (t : Int) (k : Int)
    (h : ∀ o ∈ df, o.user_id ≠ t) (hk : 0 ≤ k) :
    getPersonalizedGames catalog df t k = some (catalog.take k.toNat) ∧
    (catalog.take k.toNat).length = min k.toNat catalog.length := by
  have hrec : recommend df t k.toNat = [] := recommend_eq_nil_of_absent df t k.toNat h
  constructor
  · rw [getPersonalizedGames, if_neg (not_lt.2 hk)]
    simp only [hrec, if_pos]
  · exact List.length_take ..

/-- Claim C6: the cosine-similarity matrix is symmetric:
`sim(a, b) = sim(b, a)` for all users `a`, `b`. -/
theorem C6_similarity_symmetric (df : List Obs) (a b : Int) : sim df a b = sim df b a := by
  rw [sim, sim, dotQ_comm df a b]
  by_cases h : dotQ df a a = 0 ∨ dotQ df b b = 0
  · rw [if_pos h, if_pos h.symm]
  · rw [if_neg h, if_neg fun hc => h hc.symm, mul_comm]

/-- Claim C7: if either user's rating vector has zero norm, the similarity is
defined as `0` (no NaN, no error), and with non-negative ratings every
similarity value lies in `[0, 1]`. -/
theorem C7_zero_norm_and_range (df : List Obs) (a b : Int) (hr : ∀ o ∈ df, 0 ≤ o.rating) :
    (dotQ df a a = 0 ∨ dotQ df b b = 0 → sim df a b = 0) ∧
    0 ≤ sim df a b ∧ sim df a b ≤ 1 := by
  refine ⟨fun h => by rw [sim, if_pos h], ?_, ?_⟩
  · rw [sim]
    split_ifs with h
    · exact le_refl 0
    · apply div_nonneg
      · exact_mod_cast dotQ_nonneg df a b hr
      · exact mul_nonneg (Real.sqrt_nonneg _) (Real.sqrt_nonneg _)
  · rw [sim]
    split_ifs with h
    · norm_num
    · push_neg at h
      have haa : 0 < dotQ df a a := lt_of_le_of_ne (dotQ_nonneg df a a hr) (Ne.symm h.1)
      have hbb : 0 < dotQ df b b := lt_of_le_of_ne (dotQ_nonneg df b b hr) (Ne.symm h.2)
      have haaR : (0:ℝ) < (dotQ df a a : ℝ) := by exact_mod_cast haa
      have hbbR : (0:ℝ) < (dotQ df b b : ℝ) := by exact_mod_cast hbb
      have habR : (0:ℝ) ≤ (dotQ df a b : ℝ) := by exact_mod_cast dotQ_nonneg df a b hr
      rw [div_le_one (by positivity)]
      have hcs : ((dotQ df a b : ℝ)) ^ 2 ≤ (dotQ df a a : ℝ) * (dotQ df b b : ℝ) := by
        exact_mod_cast dotQ_sq_le df a b
      calc (dotQ df a b : ℝ) = Real.sqrt ((dotQ df a b : ℝ) ^ 2) :=
            (Real.sqrt_sq habR).symm
        _ ≤ Real.sqrt ((dotQ df a a : ℝ) * (dotQ df b b : ℝ)) := Real.sqrt_le_sqrt hcs
        _ = Real.sqrt (dotQ df a a : ℝ) * Real.sqrt (dotQ df b b : ℝ) :=
            Real.sqrt_mul haaR.le _

/-- Claim C8: on the defined domain (non-negative `num_recommendations`), the
endpoint never raises: every insufficient-signal condition resolves to the
fallback and the caller always receives a list. -/
theorem C8_never_raises (catalog : List Int) (df : List Obs) (uid : Int) (limit : Int)
    (h : 0 ≤ limit) : ∃ out, getPersonalizedGames catalog df uid limit = some out := by
  rw [getPersonalizedGames, if_neg (not_lt.2 h)]
  by_cases hids : recommend df uid limit.toNat = []
  · exact ⟨_, by rw [if_pos hids]⟩
  · exact ⟨_, by rw [if_neg hids]⟩

/-- Claim C9: determinism — two invocations with the same target, the same
`num_recommendations` and an unchanged observation set return identical
ordered output lists. -/
theorem C9_deterministic (df₁ df₂ : List Obs) (t : Int) (k : Nat) (h : df₁ = df₂) :
    recommend df₁ t k = recommend df₂ t k := by
  rw [h]

/-- Claim C10: duplicate `(user, game)` observations are aggregated by the
pivot table's default arithmetic mean in the rating matrix, while the neighbor
scoring step consumes the raw per-observation ratings individually (the score
map equals the reference sum over raw observations). -/
theorem C10_pivot_mean_and_raw_scoring (df : List Obs) (u g : Int) (r₁ r₂ : ℚ)
    (h : ratingsOf df u g = [r₁, r₂]) :
    entry df u g = (r₁ + r₂) / 2 ∧ ∀ t g', scoreOf df t g' = refScore df t g' := by
  constructor
  · rw [entry, if_neg (by rw [h]; simp), h]
    norm_num
  · exact fun t g' => scoreOf_eq_refScore df t g'

/-- Claim C3 (amended): for a duplicate-free catalog containing every rated
game, the endpoint output has length at most `num_recommendations`, and for
`num_recommendations ≥ 1` the output is empty iff the catalog is empty.  With
`num_recommendations = 0` the output is empty even when the candidate set and
catalog are non-empty (see the counterexample). -/
theorem C3_bounded_output_amended (catalog : List Int) (df : List Obs) (t : Int) (k : Int)
    (hnd : catalog.Nodup) (hfk : ∀ o ∈ df, o.game_id ∈ catalog) (hk : 0 ≤ k) :
    ∃ out, getPersonalizedGames catalog df t k = some out ∧
      out.length ≤ k.toNat ∧ (1 ≤ k → (out = [] ↔ catalog = [])) := by
  rw [getPersonalizedGames, if_neg (not_lt.2 hk)]
  by_cases hids : recommend df t k.toNat = []
  · rw [if_pos hids]
    refine ⟨_, rfl, ?_, ?_⟩
    · rw [List.length_take]
      exact min_le_left _ _
    · intro hk1
      rw [List.take_eq_nil_iff]
      constructor
      · rintro (h0 | hc)
        · exfalso
          omega
        · exact hc
      · exact fun hc => Or.inr hc
  · rw [if_neg hids]
    refine ⟨_, rfl, ?_, ?_⟩
    · calc (catalog.filter (· ∈ recommend df t k.toNat)).length
          ≤ (recommend df t k.toNat).length := length_filter_mem_le _ _ hnd
        _ ≤ k.toNat := recommend_length_le df t k.toNat
    · intro _
      obtain ⟨g, hg⟩ : ∃ g, g ∈ recommend df t k.toNat := by
        cases hl : recommend df t k.toNat with
        | nil => exact absurd hl hids
        | cons a l => exact ⟨a, hl ▸ List.mem_cons_self a l⟩
      have hkeys := mem_recommend df t k.toNat g hg
      rw [mem_keys_recDict] at hkeys
      have hgdf := (mem_refCandidates df t g hkeys).2
      obtain ⟨o, ho, rfl⟩ := List.mem_map.mp hgdf
      have hcat : o.game_id ∈ catalog := hfk o ho
      have hout : o.game_id ∈ catalog.filter (· ∈ recommend df t k.toNat) := by
        rw [List.mem_filter]
        exact ⟨hcat, by simpa using hg⟩
      constructor
      · intro he
        rw [he] at hout
        exact absurd hout (List.not_mem_nil _)
      · intro he
        rw [he] at hcat
        exact absurd hcat (List.not_mem_nil _)

/-- Claim C1 (counterexample): in the specification's concrete scenario the
code does not return `[200]` — the zero-similarity neighbor's game 300 is not
excluded. -/
theorem C1_counterexample : recommend dfC1 1 5 ≠ [200] := by
  rw [dfC1_recommend]
  decide

/-- Claim C1 (amended): in the concrete scenario, `recommend 1 5` returns
exactly `[200, 300]`: game 100 is excluded as already rated by the target,
while game 300 is kept as a candidate with accumulated score `0 * 8 = 0`,
because the zero-similarity neighbor 3 is still among the top-10 neighbors. -/
theorem C1_amended_scenario : recommend dfC1 1 5 = [200, 300] :=
  dfC1_recommend

/-- Claim C2 (counterexample): when the personalized path yields no candidates,
the endpoint's fallback serves the catalog unfiltered, so a game the target
already rated (game 100, rated 5 by user 1) is returned to the caller. -/
theorem C2_counterexample :
    (100 : Int) ∈ rated dfC2 1 ∧ getPersonalizedGames [100] dfC2 1 1 = some [100] := by
  refine ⟨by decide, ?_⟩
  rw [getPersonalizedGames, if_neg (by decide), if_pos (dfC2_recommend _)]
  rfl

/-- Claim C2 (witness): the amended theorem applied to the concrete scenario:
game 100 is rated by user 1 and never appears in the personalized output. -/
theorem C2_witness :
    (100 : Int) ∈ rated dfC2 1 ∧ (100 : Int) ∉ recommend dfC2 1 5 :=
  ⟨by decide, C2_personalized_excludes_rated dfC2 1 5 100 (by decide)⟩

/-- Claim C3 (counterexample): with `num_recommendations = 0`, a non-empty
candidate set (`[200]`) and a non-empty catalog, the endpoint returns the
empty list — refuting the claimed "empty iff candidate set or catalog empty". -/
theorem C3_counterexample :
    getPersonalizedGames [100, 200] dfC3 1 0 = some [] ∧
    (recDict dfC3 1).map Prod.fst = [200] ∧ ([100, 200] : List Int) ≠ [] := by
  refine ⟨?_, dfC3_keys, by decide⟩
  rw [getPersonalizedGames, if_neg (by decide), Int.toNat_zero, if_pos dfC3_recommend_zero]
  rfl

/-- Claim C3 (witness): the amended theorem applied at catalog `[100, 200]`,
data `dfC3`, target 1, `num_recommendations = 1`. -/
theorem C3_witness :
    ([100, 200] : List Int).Nodup ∧ (∀ o ∈ dfC3, o.game_id ∈ ([100, 200] : List Int)) ∧
    ((0 : Int) ≤ 1) ∧
    ∃ out, getPersonalizedGames [100, 200] dfC3 1 1 = some out ∧
      out.length ≤ (1 : Int).toNat ∧
      (1 ≤ (1 : Int) → (out = [] ↔ ([100, 200] : List Int) = [])) :=
  ⟨by decide, by decide, by decide,
    C3_bounded_output_amended [100, 200] dfC3 1 1 (by decide) (by decide) (by decide)⟩

/-- Claim C5 (witness): the cold-start theorem applied to a target (user 2)
with zero observations and a three-game catalog with `k = 2`. -/
theorem C5_witness :
    (∀ o ∈ dfC2, o.user_id ≠ 2) ∧ ((0 : Int) ≤ 2) ∧
    (getPersonalizedGames [100, 200, 300] dfC2 2 2 =
        some (([100, 200, 300] : List Int).take (2 : Int).toNat) ∧
      (([100, 200, 300] : List Int).take (2 : Int).toNat).length =
        min (2 : Int).toNat ([100, 200, 300] : List Int).length) :=
  ⟨by decide, by decide, C5_cold_start [100, 200, 300] dfC2 2 2 (by decide) (by decide)⟩

/-- Claim C7 (witness): the similarity-range theorem applied to `dfC2`
(non-negative ratings) at users 1 and 2. -/
theorem C7_witness :
    (∀ o ∈ dfC2, 0 ≤ o.rating) ∧
    ((dotQ dfC2 1 1 = 0 ∨ dotQ dfC2 2 2 = 0 → sim dfC2 1 2 = 0) ∧
      0 ≤ sim dfC2 1 2 ∧ sim dfC2 1 2 ≤ 1) :=
  ⟨by decide, C7_zero_norm_and_range dfC2 1 2 (by decide)⟩

/-- Claim C8 (witness): the totality theorem applied at `limit = 0`. -/
theorem C8_witness :
    ((0 : Int) ≤ 0) ∧ ∃ out, getPersonalizedGames [100] dfC2 1 0 = some out :=
  ⟨by decide, C8_never_raises [100] dfC2 1 0 (by decide)⟩

/-- Claim C9 (witness): determinism applied to two identical data sets. -/
theorem C9_witness :
    dfC2 = dfC2 ∧ recommend dfC2 1 3 = recommend dfC2 1 3 :=
  ⟨rfl, C9_deterministic dfC2 dfC2 1 3 rfl⟩

/-- Claim C10 (witness): the pivot-mean theorem applied to a user who rated
game 100 twice (4 and 6): the matrix entry is the mean 5. -/
theorem C10_witness :
    ratingsOf dfC10 1 100 = [4, 6] ∧
    (entry dfC10 1 100 = (4 + 6) / 2 ∧
      ∀ t g', scoreOf dfC10 t g' = refScore dfC10 t g') :=
  ⟨by decide, C10_pivot_mean_and_raw_scoring dfC10 1 100 4 6 (by decide)⟩

end Leadrboard
